import Mathlib

/-!
Verification of the feedreader core: a shallow embedding of the
repository's setup wiring (src/homeassistant/components/feedreader/__init__.py),
of the deduplication Store and Poll Coordinator described by the design
document, and of the user config flow whose behaviour is pinned by
src/tests/components/feedreader/test_config_flow.py.
-/

namespace Feedreader

/-! ## Data model -/

/-- Modelled from the spec: the Feed Entry record of section 3
(`coordinator.py` is not part of the sources).  Every attribute other than
the containing feed identity is optional: a feed-provided stable
identifier, a link URL, a title, a published timestamp, and a raw content
reference. -/
structure Entry where
  entryId : Option String
  link : Option String
  title : Option String
  published : Option Nat
  content : Option String
deriving DecidableEq

abbrev Fingerprint := String

abbrev FeedId := String

/-- Per feed identity, the ordered collection of fingerprints already
observed, most-recently-seen last, bounded to the configured max-entries. -/
abbrev KnownSet := List Fingerprint

/-- The Store maps each feed identity to its Known-Fingerprint Set. -/
abbrev Store := List (FeedId × KnownSet)

def optStr : Option String → String
  | none => ""
  | some s => s

def optNatStr : Option Nat → String
  | none => ""
  | some n => toString n

/-- Modelled from the spec: fingerprint derivation (section 3;
`coordinator.py` is not part of the sources).  Prefer the feed-provided
identifier; otherwise derive a stable value from the combination of link,
title and published timestamp; fall back to a hash of the available ones
of those fields when all three are absent (then no field is available, so
the hash is a fixed tag). -/
def fingerprint (e : Entry) : Fingerprint :=
  match e.entryId with
  | some i => i
  | none =>
      match e.link, e.title, e.published with
      | none, none, none => "hash:"
      | l, t, p => "derived:" ++ optStr l ++ "|" ++ optStr t ++ "|" ++ optNatStr p

/-! ## Deduplication Store -/

/-- Look up the Known-Fingerprint Set recorded for a feed identity;
an identity never committed yet has the empty set. -/
def lookupFeed : Store → FeedId → KnownSet
  | [], _ => []
  | (k, v) :: rest, fid => if k = fid then v else lookupFeed rest fid

/-- Modelled from the spec: `commit(feedIdentity, updatedKnownSet)`
atomically replaces the in-memory Known-Fingerprint Set for that identity
(section 4.2; `coordinator.py` is not part of the sources). -/
def commitFeed : Store → FeedId → KnownSet → Store
  | [], fid, ks => [(fid, ks)]
  | (k, v) :: rest, fid, ks =>
      if k = fid then (k, ks) :: rest else (k, v) :: commitFeed rest fid ks

/-- The entries of the fetched sequence whose fingerprints are not in the
Known-Fingerprint Set, kept in feed order. -/
def classifyEntries (known : KnownSet) : List Entry → List Entry
  | [] => []
  | e :: rest =>
      if fingerprint e ∈ known then classifyEntries known rest
      else e :: classifyEntries known rest

/-- Append one fingerprint at the most-recently-seen end, without
duplicating a fingerprint already present. -/
def appendFingerprint (known : KnownSet) (fp : Fingerprint) : KnownSet :=
  if fp ∈ known then known else known ++ [fp]

/-- Evict from the oldest end until at most `n` fingerprints remain. -/
def applyBound (n : Nat) (ks : KnownSet) : KnownSet :=
  ks.drop (ks.length - n)

/-- Append the given fingerprints in order and apply the bound/eviction
rule of section 3. -/
def updateKnown (n : Nat) (known : KnownSet) (fps : List Fingerprint) : KnownSet :=
  applyBound n (fps.foldl appendFingerprint known)

/-- Modelled from the spec: `classify(feedIdentity, entries)` (section 4.2;
`coordinator.py` is not part of the sources).  A pure computation: an entry
is new iff its fingerprint is not in the current Known-Fingerprint Set for
the identity; the result is the new entries in their original relative
order, together with the set updated by appending the new fingerprints and
applying the bound. -/
def classify (n : Nat) (store : Store) (fid : FeedId) (entries : List Entry) :
    List Entry × KnownSet :=
  let known := lookupFeed store fid
  let newEntries := classifyEntries known entries
  (newEntries, updateKnown n known (newEntries.map fingerprint))

/-! ## Durable storage -/

/-- The durable storage backing the Store: absent, corrupt, or a readable
snapshot holding one record per feed identity. -/
inductive DurableState where
  | absent
  | corrupt
  | snapshot (data : List (FeedId × KnownSet))
deriving DecidableEq

/-- Modelled from the spec: `flush()` persists the full in-memory state to
durable storage as one record per feed identity (sections 4.2 and 6;
`coordinator.py` is not part of the sources). -/
def flush (s : Store) : DurableState :=
  .snapshot s

/-- Modelled from the spec: `load()` populates in-memory state from durable
storage, tolerating absence or corruption of the persisted form by starting
empty, and never raises (section 4.2; `coordinator.py` is not part of the
sources).  Totality of this function is the never-raises guarantee. -/
def load : DurableState → Store
  | .absent => []
  | .corrupt => []
  | .snapshot data => data

/-! ## Poll Coordinator -/

/-- Outcome of one fetch: a parsed entry sequence, or a typed failure. -/
inductive FetchResult where
  | success (entries : List Entry)
  | fetchError
  | parseError
deriving DecidableEq

/-- The per-feed state machine of section 4.3. -/
inductive CoordPhase where
  | IDLE
  | FETCHING
  | CLASSIFYING
deriving DecidableEq

/-- A timer tick starts a cycle from IDLE; a tick arriving while a cycle is
in flight is skipped (section 5). -/
def tick : CoordPhase → CoordPhase
  | .IDLE => .FETCHING
  | s => s

structure CycleResult where
  store : Store
  newEntries : List Entry
  phase : CoordPhase
deriving DecidableEq

/-- Modelled from the spec: one poll cycle of the Coordinator (section 4.3;
`coordinator.py` is not part of the sources).  On fetch success, classify
then commit and hand over the new entries; on `FetchError` or `ParseError`,
leave the Store untouched and return to IDLE. -/
def pollCycle (n : Nat) (store : Store) (fid : FeedId) (r : FetchResult) :
    CycleResult :=
  match r with
  | .success es =>
      let result := classify n store fid es
      { store := commitFeed store fid result.2
        newEntries := result.1
        phase := .IDLE }
  | .fetchError => { store := store, newEntries := [], phase := .IDLE }
  | .parseError => { store := store, newEntries := [], phase := .IDLE }

/-- The Store after a sequence of poll cycles for one feed identity. -/
def runCycles (n : Nat) (fid : FeedId) (store : Store) (rs : List FetchResult) :
    Store :=
  rs.foldl (fun st r => (pollCycle n st fid r).store) store

/-! ## Setup wiring (src/homeassistant/components/feedreader/init) -/

/-- DEFAULT_SCAN_INTERVAL = timedelta(hours=1), in seconds. -/
def DEFAULT_SCAN_INTERVAL : Nat := 3600

/-- Modelled from the spec: the default max-entries bound declared in
`const.py`, which is not part of the sources; its value is irrelevant to
the claims. -/
def DEFAULT_MAX_ENTRIES : Nat := 20

/-- The data of one config entry: CONF_URL and CONF_MAX_ENTRIES (these are
the only keys the flows store, as the config-flow tests show). -/
structure EntryData where
  url : String
  max_entries : Nat
deriving DecidableEq

/-- The coordinator built by `async_setup_entry`: feed URL, update
interval, max-entries bound, and the shared storage it was handed. -/
structure Coordinator where
  url : FeedId
  updateInterval : Nat
  maxEntries : Nat
  storage : Store
deriving DecidableEq

/-- Process state threaded through setup: the Store placed in
`hass.data[MY_KEY]` when present, and how many Store instances were
created. -/
structure SetupState where
  storage : Option Store
  storesCreated : Nat
deriving DecidableEq

def initialState : SetupState :=
  { storage := none, storesCreated := 0 }

/-- `async_setup` (lines 48-52): create one `StoredData`, load it from
durable storage, and place it in `hass.data[MY_KEY]`. -/
def async_setup (s : SetupState) (d : DurableState) : SetupState :=
  { storage := some (load d), storesCreated := s.storesCreated + 1 }

/-- The YAML configuration accepted by CONFIG_SCHEMA (lines 27-45): urls,
an optional scan interval (seconds) and an optional max-entries bound. -/
structure YamlDomainConfig where
  urls : List String
  scan_interval : Nat
  max_entries : Nat
deriving DecidableEq

/-- The import-flow data built by `async_setup` (lines 54-65): one entry
per URL carrying CONF_URL and CONF_MAX_ENTRIES only — the configured scan
interval is not forwarded. -/
def forwardedEntryData (c : YamlDomainConfig) : List EntryData :=
  c.urls.map (fun u => { url := u, max_entries := c.max_entries })

/-- `async_setup_entry` (lines 86-96): read the shared storage from
`hass.data[MY_KEY]` and build the coordinator with the entry URL,
DEFAULT_SCAN_INTERVAL, the entry max-entries, and that storage. -/
def async_setup_entry (s : SetupState) (e : EntryData) : Option Coordinator :=
  s.storage.map (fun st =>
    { url := e.url
      updateInterval := DEFAULT_SCAN_INTERVAL
      maxEntries := e.max_entries
      storage := st })

/-! ## User config flow (behaviour pinned by test_config_flow.py) -/

/-- What fetching the candidate URL during the user step can yield: a
transport error, or a parsed document with a feed title and its entries. -/
inductive FlowFetchResult where
  | urlError
  | parsed (title : String) (entries : List Entry)
deriving DecidableEq

/-- The user step input: CONF_URL and CONF_MAX_ENTRIES. -/
structure FlowInput where
  url : String
  max_entries : Nat
deriving DecidableEq

/-- Result of one user-step attempt: re-present the form with an error, or
create the config entry. -/
inductive FlowResult where
  | form (stepId : String) (errorBase : Option String)
  | createEntry (title : String) (url : String) (max_entries : Nat)
deriving DecidableEq

/-- Modelled from the spec: the user step of the config flow
(`config_flow.py` is not part of the sources; its observable behaviour is
pinned by test_user and test_user_errors).  A transport failure re-presents
the form with error base "url_error"; a well-formed response with zero
entries re-presents it with "no_feed_entries"; otherwise the entry is
created with exactly the submitted URL and max-entries.  The step keeps no
other state, so a later attempt is unaffected by earlier failures. -/
def userStep (input : FlowInput) (fetch : FlowFetchResult) : FlowResult :=
  match fetch with
  | .urlError => .form "user" (some "url_error")
  | .parsed _ [] => .form "user" (some "no_feed_entries")
  | .parsed title (_ :: _) => .createEntry title input.url input.max_entries

/-! ## Sample data for concrete checks -/

/-- A sample entry carrying the feed-provided identifier "a". -/
def entryA : Entry :=
  { entryId := some "a", link := none, title := none, published := none,
    content := none }

/-- A sample entry carrying the feed-provided identifier "b". -/
def entryB : Entry :=
  { entryId := some "b", link := none, title := none, published := none,
    content := none }

/-- A sample identifier-less entry with content "c1". -/
def entryNoId1 : Entry :=
  { entryId := none, link := some "l", title := some "t", published := some 5,
    content := some "c1" }

/-- The same identifier-less entry fetched again with content "c2". -/
def entryNoId2 : Entry :=
  { entryId := none, link := some "l", title := some "t", published := some 5,
    content := some "c2" }

/-- A sample entry with an explicit identifier and a different title. -/
def entryIdTitled : Entry :=
  { entryId := some "id1", link := some "l", title := some "edited",
    published := some 5, content := none }

/-- A YAML configuration that supplies a per-feed scan interval of 1800
seconds alongside one URL. -/
def yamlWithInterval : YamlDomainConfig :=
  { urls := ["http://site/feed"], scan_interval := 1800, max_entries := 20 }

/-- The entry data the import flow forwards for `yamlWithInterval`. -/
def entryDataSample : EntryData :=
  { url := "http://site/feed", max_entries := 20 }

/-- A sample config entry data record. -/
def entryDataU : EntryData :=
  { url := "u", max_entries := 5 }

/-- The coordinator `async_setup_entry` builds for `entryDataU` when the
shared storage is the empty Store. -/
def coordinatorU : Coordinator :=
  { url := "u", updateInterval := 3600, maxEntries := 5, storage := [] }

/-- A setup state holding the empty shared Store. -/
def setupStateU : SetupState :=
  { storage := some [], storesCreated := 1 }

/-- A sample user-step input. -/
def flowInputSample : FlowInput :=
  { url := "http://site/feed", max_entries := 5 }

/-! ## Helper lemmas -/

theorem lookupFeed_commitFeed (s : Store) (fid : FeedId) (ks : KnownSet) :
    lookupFeed (commitFeed s fid ks) fid = ks := by
  induction s with
  | nil => simp [commitFeed, lookupFeed]
  | cons p rest ih =>
      obtain ⟨k, v⟩ := p
      by_cases h : k = fid
      · simp [commitFeed, lookupFeed, h]
      · simp [commitFeed, lookupFeed, h, ih]

theorem classifyEntries_eq_filter (known : KnownSet) (es : List Entry) :
    classifyEntries known es =
      es.filter (fun e => decide (fingerprint e ∉ known)) := by
  induction es with
  | nil => rfl
  | cons e rest ih =>
      by_cases h : fingerprint e ∈ known
      · simp [classifyEntries, List.filter_cons, h, ih]
      · simp [classifyEntries, List.filter_cons, h, ih]

theorem classifyEntries_sublist (known : KnownSet) (es : List Entry) :
    (classifyEntries known es).Sublist es := by
  rw [classifyEntries_eq_filter]
  exact List.filter_sublist es

theorem length_applyBound (n : Nat) (ks : KnownSet) :
    (applyBound n ks).length ≤ n := by
  simp only [applyBound, List.length_drop]
  omega

theorem applyBound_of_le (n : Nat) (ks : KnownSet) (h : ks.length ≤ n) :
    applyBound n ks = ks := by
  simp [applyBound, Nat.sub_eq_zero_of_le h]

theorem length_foldl_appendFingerprint (fps : List Fingerprint) (known : KnownSet) :
    (fps.foldl appendFingerprint known).length ≤ known.length + fps.length := by
  induction fps generalizing known with
  | nil => simp
  | cons fp rest ih =>
      have h1 : (appendFingerprint known fp).length ≤ known.length + 1 := by
        by_cases h : fp ∈ known <;> simp [appendFingerprint, h]
      have h2 := ih (appendFingerprint known fp)
      simp only [List.foldl_cons, List.length_cons]
      omega

theorem mem_appendFingerprint (known : KnownSet) (fp fp2 : Fingerprint)
    (h : fp ∈ known) : fp ∈ appendFingerprint known fp2 := by
  by_cases h2 : fp2 ∈ known <;> simp [appendFingerprint, h2, h]

theorem self_mem_appendFingerprint (known : KnownSet) (fp : Fingerprint) :
    fp ∈ appendFingerprint known fp := by
  by_cases h : fp ∈ known <;> simp [appendFingerprint, h]

theorem mem_foldl_of_mem (fps : List Fingerprint) (known : KnownSet)
    (fp : Fingerprint) (h : fp ∈ known) :
    fp ∈ fps.foldl appendFingerprint known := by
  induction fps generalizing known with
  | nil => exact h
  | cons f rest ih => exact ih _ (mem_appendFingerprint _ _ _ h)

theorem mem_foldl_of_mem_list (fps : List Fingerprint) (known : KnownSet)
    (fp : Fingerprint) (h : fp ∈ fps) :
    fp ∈ fps.foldl appendFingerprint known := by
  induction fps generalizing known with
  | nil => cases h
  | cons f rest ih =>
      rcases List.mem_cons.mp h with h1 | h1
      · subst h1
        exact mem_foldl_of_mem rest (appendFingerprint known fp) fp
          (self_mem_appendFingerprint known fp)
      · exact ih _ h1

theorem classifyEntries_eq_nil (known : KnownSet) (es : List Entry)
    (h : ∀ e ∈ es, fingerprint e ∈ known) : classifyEntries known es = [] := by
  induction es with
  | nil => rfl
  | cons e rest ih =>
      have he := h e (List.mem_cons_self e rest)
      simp only [classifyEntries, if_pos he]
      exact ih (fun x hx => h x (List.mem_cons_of_mem _ hx))

theorem fingerprint_mem_new (known : KnownSet) (es : List Entry) (e : Entry)
    (he : e ∈ es) (h : fingerprint e ∉ known) :
    fingerprint e ∈ (classifyEntries known es).map fingerprint := by
  refine List.mem_map_of_mem _ ?_
  rw [classifyEntries_eq_filter, List.mem_filter]
  exact ⟨he, by simpa using h⟩

theorem lookup_runCycles_length (n : Nat) (fid : FeedId) (store : Store)
    (rs : List FetchResult) (hstore : (lookupFeed store fid).length ≤ n) :
    (lookupFeed (runCycles n fid store rs) fid).length ≤ n := by
  induction rs generalizing store with
  | nil => exact hstore
  | cons r rest ih =>
      have hstep : (lookupFeed (pollCycle n store fid r).store fid).length ≤ n := by
        cases r with
        | success es =>
            show (lookupFeed (commitFeed store fid (classify n store fid es).2) fid).length ≤ n
            rw [lookupFeed_commitFeed]
            exact length_applyBound n _
        | fetchError => exact hstore
        | parseError => exact hstore
      exact ih _ hstep

/-! ## Claims -/

/-- Claim C1: for every feed identity and fetched entry sequence, `classify`
returns exactly the sub-sequence of entries whose fingerprints are not in
the current Known-Fingerprint Set for that identity, and the new entries
preserve their relative order from the fetched sequence. -/
theorem classify_filter_and_order (n : Nat) (store : Store) (fid : FeedId)
    (es : List Entry) :
    (classify n store fid es).1 =
        es.filter (fun e => decide (fingerprint e ∉ lookupFeed store fid)) ∧
    ((classify n store fid es).1).Sublist es := by
  have h1 : (classify n store fid es).1 = classifyEntries (lookupFeed store fid) es := rfl
  constructor
  · rw [h1]
    exact classifyEntries_eq_filter _ _
  · rw [h1]
    exact classifyEntries_sublist _ _

/-- Claim C2: after any number of classify/commit poll cycles the
Known-Fingerprint Set never exceeds the configured bound `n`, and when an
insertion would exceed `n` the oldest fingerprint (the head of the
recency-ordered set) is the one evicted. -/
theorem knownSet_bounded_and_evicts_oldest (n : Nat) (fid : FeedId)
    (store : Store) (rs : List FetchResult) (known : KnownSet)
    (fp : Fingerprint) (hstore : (lookupFeed store fid).length ≤ n)
    (hlen : known.length = n) (hfp : fp ∉ known) (hne : known ≠ []) :
    (lookupFeed (runCycles n fid store rs) fid).length ≤ n ∧
    updateKnown n known [fp] = known.tail ++ [fp] := by
  refine ⟨lookup_runCycles_length n fid store rs hstore, ?_⟩
  obtain ⟨k, ks, rfl⟩ : ∃ k ks, known = k :: ks := by
    cases known with
    | nil => exact absurd rfl hne
    | cons k ks => exact ⟨k, ks, rfl⟩
  simp only [updateKnown, List.foldl_cons, List.foldl_nil, appendFingerprint,
    if_neg hfp, applyBound]
  have hl : ((k :: ks) ++ [fp]).length - n = 1 := by
    simp only [List.length_append, List.length_cons, List.length_nil] at hlen ⊢
    omega
  rw [hl]
  simp

/-- Witness for claim C2 at a concrete feed, cycle list and known set. -/
theorem knownSet_bounded_and_evicts_oldest_witness :
    (lookupFeed (runCycles 2 "f" [] [FetchResult.success [entryA]]) "f").length ≤ 2 ∧
    updateKnown 2 ["x", "y"] ["z"] = ["x", "y"].tail ++ ["z"] :=
  knownSet_bounded_and_evicts_oldest 2 "f" [] [FetchResult.success [entryA]]
    ["x", "y"] "z" (by decide) (by decide) (by decide) (by decide)

/-- Claim C3: a poll cycle whose fetch fails with FetchError or ParseError
leaves the Store exactly unchanged, hands over no entries, and returns to
IDLE, from which the next tick starts a new fetch. -/
theorem fetch_failure_leaves_store_unchanged (n : Nat) (store : Store)
    (fid : FeedId) :
    pollCycle n store fid .fetchError =
        { store := store, newEntries := [], phase := .IDLE } ∧
    pollCycle n store fid .parseError =
        { store := store, newEntries := [], phase := .IDLE } ∧
    tick .IDLE = .FETCHING :=
  ⟨rfl, rfl, rfl⟩

/-- Claim C4: an entry carrying a feed-provided identifier fingerprints to
that identifier regardless of all other fields; an entry lacking one
fingerprints identically whenever link, title and published agree. -/
theorem fingerprint_stability (e1 e2 : Entry) (i : String) :
    (e1.entryId = some i → fingerprint e1 = i) ∧
    (e1.entryId = none → e2.entryId = none → e1.link = e2.link →
      e1.title = e2.title → e1.published = e2.published →
      fingerprint e1 = fingerprint e2) := by
  constructor
  · intro h
    simp [fingerprint, h]
  · intro h1 h2 hl ht hp
    simp only [fingerprint, h1, h2]
    rw [hl, ht, hp]

/-- Witness for claim C4: an identified entry keeps its identifier, and two
identifier-less fetches differing only in content fingerprint equally. -/
theorem fingerprint_stability_witness :
    fingerprint entryIdTitled = "id1" ∧
    fingerprint entryNoId1 = fingerprint entryNoId2 :=
  ⟨(fingerprint_stability entryIdTitled entryNoId1 "id1").1 rfl,
   (fingerprint_stability entryNoId1 entryNoId2 "unused").2
     rfl rfl rfl rfl rfl⟩

/-- Counterexample to claim C5 as stated: with bound 1, classifying and
committing the two-entry sequence evicts the first fingerprint, so
re-classifying the same unmodified sequence returns a non-empty new list. -/
theorem reclassify_after_commit_counterexample :
    (classify 1 (commitFeed [] "f" (classify 1 [] "f" [entryA, entryB]).2)
      "f" [entryA, entryB]).1 ≠ [] := by
  decide

/-- Claim C5, amended: classifying the same unmodified sequence after a
classify/commit of it returns zero new entries provided the commit evicted
none of its fingerprints — in particular whenever the prior known-set size
plus the sequence length stays within the bound `n`. -/
theorem reclassify_after_commit_empty (n : Nat) (store : Store) (fid : FeedId)
    (es : List Entry) (h : (lookupFeed store fid).length + es.length ≤ n) :
    (classify n (commitFeed store fid (classify n store fid es).2) fid es).1
      = [] := by
  have h2 : (classify n (commitFeed store fid (classify n store fid es).2) fid es).1
      = classifyEntries ((classify n store fid es).2) es := by
    show classifyEntries
        (lookupFeed (commitFeed store fid (classify n store fid es).2) fid) es = _
    rw [lookupFeed_commitFeed]
  rw [h2]
  have hsnd : (classify n store fid es).2
      = updateKnown n (lookupFeed store fid)
          ((classifyEntries (lookupFeed store fid) es).map fingerprint) := rfl
  rw [hsnd]
  have hfl : ((classifyEntries (lookupFeed store fid) es).map fingerprint).length
      ≤ es.length := by
    have hsub := classifyEntries_sublist (lookupFeed store fid) es
    simpa using hsub.length_le
  have hlen2 : (((classifyEntries (lookupFeed store fid) es).map
      fingerprint).foldl appendFingerprint (lookupFeed store fid)).length ≤ n := by
    have := length_foldl_appendFingerprint
      ((classifyEntries (lookupFeed store fid) es).map fingerprint)
      (lookupFeed store fid)
    omega
  rw [show updateKnown n (lookupFeed store fid)
      ((classifyEntries (lookupFeed store fid) es).map fingerprint)
    = ((classifyEntries (lookupFeed store fid) es).map fingerprint).foldl
        appendFingerprint (lookupFeed store fid) from applyBound_of_le _ _ hlen2]
  apply classifyEntries_eq_nil
  intro e he
  by_cases hm : fingerprint e ∈ lookupFeed store fid
  · exact mem_foldl_of_mem _ _ _ hm
  · exact mem_foldl_of_mem_list _ _ _
      (fingerprint_mem_new (lookupFeed store fid) es e he hm)

/-- Witness for the amended claim C5 at a concrete store and sequence. -/
theorem reclassify_after_commit_empty_witness :
    (classify 3 (commitFeed [] "f" (classify 3 [] "f" [entryA]).2)
      "f" [entryA]).1 = [] :=
  reclassify_after_commit_empty 3 [] "f" [entryA] (by decide)

/-- Claim C6: flushing the Store and loading from that same durable
snapshot yields a Store on which `classify` of any entry sequence returns
the same new/already-seen partition as before. -/
theorem flush_load_preserves_classification (s : Store) (n : Nat)
    (fid : FeedId) (es : List Entry) :
    classify n (load (flush s)) fid es = classify n s fid es :=
  rfl

/-- Claim C7: `load` is a total function (it never raises); it populates
the Store from a readable snapshot and yields the empty Store on an absent
or corrupt persisted file. -/
theorem load_tolerates_absent_or_corrupt :
    load .absent = [] ∧ load .corrupt = [] ∧
    ∀ data : List (FeedId × KnownSet), load (.snapshot data) = data :=
  ⟨rfl, rfl, fun _ => rfl⟩

/-- Counterexample to claim C8 as stated: a YAML configuration supplying a
per-feed scan interval of 1800 seconds is forwarded without it, and the
coordinator built for the resulting entry uses 3600 (the default), not the
supplied 1800. -/
theorem scan_interval_ignored_counterexample :
    yamlWithInterval.scan_interval = 1800 ∧
    forwardedEntryData yamlWithInterval = [entryDataSample] ∧
    Option.map Coordinator.updateInterval
        (async_setup_entry (async_setup initialState .absent) entryDataSample) =
      some 3600 ∧
    (3600 : Nat) ≠ 1800 :=
  ⟨rfl, rfl, rfl, by decide⟩

/-- Claim C8, amended: the poll interval used by every feed's coordinator is
always DEFAULT_SCAN_INTERVAL; a configured per-feed scan interval is
accepted by the YAML schema but never forwarded to the coordinator. -/
theorem coordinator_interval_always_default (s : SetupState) (e : EntryData)
    (c : Coordinator) (h : async_setup_entry s e = some c) :
    c.updateInterval = DEFAULT_SCAN_INTERVAL := by
  cases hs : s.storage with
  | none => simp [async_setup_entry, hs] at h
  | some st =>
      simp [async_setup_entry, hs] at h
      subst h
      rfl

/-- Witness for the amended claim C8 at a concrete setup state and entry. -/
theorem coordinator_interval_always_default_witness :
    coordinatorU.updateInterval = DEFAULT_SCAN_INTERVAL :=
  coordinator_interval_always_default setupStateU entryDataU coordinatorU rfl

/-- Claim C9: setup creates and loads exactly one Store, and every
coordinator subsequently created for any configured entry receives that
same shared Store. -/
theorem single_shared_store (d : DurableState) (entries : List EntryData) :
    (async_setup initialState d).storesCreated = 1 ∧
    ∀ e ∈ entries, async_setup_entry (async_setup initialState d) e =
      some { url := e.url, updateInterval := DEFAULT_SCAN_INTERVAL,
             maxEntries := e.max_entries, storage := load d } := by
  refine ⟨rfl, ?_⟩
  intro e _
  rfl

/-- Witness for claim C9 at a concrete durable state and entry list. -/
theorem single_shared_store_witness :
    async_setup_entry (async_setup initialState .absent) entryDataU =
      some { url := entryDataU.url, updateInterval := DEFAULT_SCAN_INTERVAL,
             maxEntries := entryDataU.max_entries, storage := load .absent } :=
  (single_shared_store .absent [entryDataU]).2 entryDataU (by decide)

/-- Claim C10: the user step creates a config entry only when the fetch
succeeds with at least one entry; a transport error re-presents the form
with "url_error", an empty well-formed response re-presents it with
"no_feed_entries", and a later success creates the entry with exactly the
submitted URL and max-entries. -/
theorem user_flow_error_handling (input : FlowInput) (title : String)
    (es : List Entry) (h : es ≠ []) :
    userStep input .urlError = .form "user" (some "url_error") ∧
    userStep input (.parsed title []) = .form "user" (some "no_feed_entries") ∧
    userStep input (.parsed title es) =
      .createEntry title input.url input.max_entries := by
  refine ⟨rfl, rfl, ?_⟩
  cases es with
  | nil => exact absurd rfl h
  | cons e rest => rfl

/-- Witness for claim C10 at a concrete input and one-entry feed. -/
theorem user_flow_error_handling_witness :
    userStep flowInputSample .urlError = .form "user" (some "url_error") ∧
    userStep flowInputSample (.parsed "RSS Sample" []) =
        .form "user" (some "no_feed_entries") ∧
    userStep flowInputSample (.parsed "RSS Sample" [entryA]) =
      .createEntry "RSS Sample" "http://site/feed" 5 :=
  user_flow_error_handling flowInputSample "RSS Sample" [entryA] (by decide)

end Feedreader
